import Mathlib

/-!
Verification development for the `mold` template scaffolder.

The definitions below are a shallow embedding of the Go sources:
  - `internal/core/render.go`   (RenderTemplateFile, ReplacePlaceholdersInPath, helperFunc)
  - `internal/core/template.go` (IdentifyPlaceholders, walk)
  - `internal/cli/apply.go`     (the applyCmd tree walk)
  - `internal/utils/fs.go`      (CopyFile)
together with the fragment of Go's text/template engine those sources rely on
(lexer, parser and executor for literal text, field accesses, helper calls,
`if` and `range` blocks, with the default missingkey behaviour).
Machine integers do not appear; file permission bits are modelled as `Nat`.
-/

namespace Mold

/-! ## Case-conversion helpers

Modelled from the spec: the four helpers bound in `helperFunc` (render.go) are
`strcase.SnakeCase`, `strcase.UpperSnakeCase`, `strcase.UpperCamelCase` and
`strcase.LowerCamelCase` from the external `github.com/stoewer/go-strcase`
dependency, whose source is not part of this repository.  Following the spec,
a string is split into words at non-alphanumeric runs and at case boundaries
(lower/digit followed by upper, and the last upper of an acronym run followed
by a lower), and the four helpers reassemble the words. -/

/-- Is `c` a word character (letter or digit)?  Non-word characters separate words. -/
def isWordChar (c : Char) : Bool := c.isAlphanum

/-- Does the remaining input start with a lower-case letter?  Used for the
acronym boundary rule (`HTTPServer` splits before `Server`). -/
def nextIsLower : List Char → Bool
  | c :: _ => c.isLower
  | [] => false

/-- Is there a word boundary between the previous character `p` and the
current character `c` (with `rest` following `c`)? -/
def caseBoundary (p c : Char) (rest : List Char) : Bool :=
  isWordChar p && c.isUpper && ((p.isLower || p.isDigit) || (p.isUpper && nextIsLower rest))

/-- Split a character list into words: non-alphanumeric characters are
separators, and case boundaries start a new word.  `prev` is the previously
seen character (if any) and `acc` the current word, reversed. -/
def splitWordsAux : Option Char → List Char → List Char → List (List Char)
  | _, [], acc => if acc.isEmpty then [] else [acc.reverse]
  | prev, c :: rest, acc =>
    if isWordChar c then
      match prev with
      | some p =>
        if caseBoundary p c rest && !acc.isEmpty then
          acc.reverse :: splitWordsAux (some c) rest [c]
        else
          splitWordsAux (some c) rest (c :: acc)
      | none => splitWordsAux (some c) rest (c :: acc)
    else
      if acc.isEmpty then splitWordsAux (some c) rest []
      else acc.reverse :: splitWordsAux (some c) rest []

/-- The words of a string, per the boundary rules of the case helpers. -/
def splitWords (s : String) : List String :=
  (splitWordsAux none s.toList []).map String.mk

/-- Lower-case every character of a word. -/
def lowerWord (w : String) : String := String.mk (w.toList.map Char.toLower)

/-- Upper-case every character of a word. -/
def upperWord (w : String) : String := String.mk (w.toList.map Char.toUpper)

/-- Capitalize a word: first character upper-cased, the rest lower-cased. -/
def capWord (w : String) : String :=
  match w.toList with
  | [] => ""
  | c :: cs => String.mk (c.toUpper :: cs.map Char.toLower)

/-- Modelled from the spec: `snake` lower-cases the words and joins them with
an underscore. -/
def snakeCase (s : String) : String :=
  String.intercalate "_" ((splitWords s).map lowerWord)

/-- Modelled from the spec: `usnake` upper-cases the words and joins them with
an underscore. -/
def upperSnakeCase (s : String) : String :=
  String.intercalate "_" ((splitWords s).map upperWord)

/-- Modelled from the spec: `camel` capitalizes every word and concatenates. -/
def upperCamelCase (s : String) : String :=
  String.join ((splitWords s).map capWord)

/-- Modelled from the spec: `lcamel` is `camel` with the first word fully
lower-cased. -/
def lowerCamelCase (s : String) : String :=
  match splitWords s with
  | [] => ""
  | w :: ws => String.join (lowerWord w :: ws.map capWord)

/-! ## Data model

The data context loaded from JSON/YAML is a `map[string]any`; values are a
closed union of scalars, nested mappings and lists. -/

/-- A dynamic value of the data context. -/
inductive Value where
  | str (s : String)
  | int (n : Int)
  | bool (b : Bool)
  | map (entries : List (String × Value))
  | list (elems : List Value)
  deriving Inhabited

/-- A data context: association list from keys to values (first match wins). -/
abbrev Data := List (String × Value)

/-- Look a key up in a data mapping (Go map indexing). -/
def lookupKey : List (String × Value) → String → Option Value
  | [], _ => none
  | (k, v) :: rest, key => if k = key then some v else lookupKey rest key

/-! ## Template syntax trees

The fragment of `text/template/parse` the sources exercise: an argument is a
field access (`FieldNode`, identifier chain), a function identifier
(`IdentifierNode`) or the dot; a command holds arguments, a pipeline holds
commands, and a node is literal text, an action, an `if` block or a `range`
block (each block carrying a pipeline, a body and an optional else body). -/

inductive Arg where
  | field (chain : List String)
  | func (name : String)
  | dot
  deriving Repr, DecidableEq

structure TCmd where
  args : List Arg
  deriving Repr, DecidableEq

structure Pipe where
  cmds : List TCmd
  deriving Repr, DecidableEq

inductive Node where
  | text (s : String)
  | action (pipe : Pipe)
  | ifn (pipe : Pipe) (list : List Node) (elseList : Option (List Node))
  | rangen (pipe : Pipe) (list : List Node) (elseList : Option (List Node))

/-- Errors of the embedded engine, mirroring the taxonomy used by the
sources: template parse failures, execution failures, and I/O failures. -/
inductive TmplError where
  | parseErr (msg : String)
  | execErr (msg : String)
  | ioErr (msg : String)
  deriving Repr, DecidableEq

instance {ε α : Type} [DecidableEq ε] [DecidableEq α] : DecidableEq (Except ε α) :=
  fun a b =>
    match a, b with
    | .error e1, .error e2 =>
      if h : e1 = e2 then isTrue (by rw [h]) else isFalse (fun hh => h (Except.error.inj hh))
    | .ok v1, .ok v2 =>
      if h : v1 = v2 then isTrue (by rw [h]) else isFalse (fun hh => h (Except.ok.inj hh))
    | .error _, .ok _ => isFalse (fun hh => Except.noConfusion hh)
    | .ok _, .error _ => isFalse (fun hh => Except.noConfusion hh)

/-! ## Lexer

Go's template lexer splits the input into literal text chunks and action
bodies delimited by the double-brace delimiters; an action left open at end of
input is a parse error ("unclosed action").  Empty text chunks are not
emitted. -/

/-- A raw lexer item: a literal text chunk or the body of one action. -/
inductive RawItem where
  | text (s : List Char)
  | action (body : List Char)
  deriving Repr, DecidableEq

/-- Scan for the opening action delimiter; on success return the text before
it and the input after it. -/
def findOpen : List Char → Option (List Char × List Char)
  | '\x7b' :: '\x7b' :: rest => some ([], rest)
  | c :: rest =>
    match findOpen rest with
    | some (pre, post) => some (c :: pre, post)
    | none => none
  | [] => none

/-- Scan for the closing action delimiter; on success return the action body
before it and the input after it. -/
def findClose : List Char → Option (List Char × List Char)
  | '\x7d' :: '\x7d' :: rest => some ([], rest)
  | c :: rest =>
    match findClose rest with
    | some (body, post) => some (c :: body, post)
    | none => none
  | [] => none

/-- Does the input contain the opening action delimiter anywhere? -/
def hasOpenDelim : List Char → Bool
  | '\x7b' :: '\x7b' :: _ => true
  | _ :: rest => hasOpenDelim rest
  | [] => false

/-- One lexer step worth of items, with fuel for termination (the fuel is
always sufficient: each step consumes the two delimiter characters). -/
def lexAux : Nat → List Char → Except TmplError (List RawItem)
  | 0, _ => .error (.parseErr "lexer out of fuel")
  | fuel + 1, cs =>
    match findOpen cs with
    | none => .ok (if cs.isEmpty then [] else [.text cs])
    | some (pre, afterOpen) =>
      match findClose afterOpen with
      | none => .error (.parseErr "unclosed action")
      | some (body, rest) =>
        match lexAux fuel rest with
        | .error e => .error e
        | .ok items =>
          .ok ((if pre.isEmpty then [] else [RawItem.text pre]) ++ RawItem.action body :: items)

/-- Lex a template into text and action items. -/
def lexTemplate (cs : List Char) : Except TmplError (List RawItem) :=
  lexAux (cs.length + 1) cs

/-! ## Action-body parsing

An action body is a whitespace-separated sequence of words; a word is a
keyword (`if`, `range`, `else`, `end`), the dot, a field chain (`.a.b`) or a
function identifier.  Per Go's parser, every identifier used as an operand
must name a registered function, otherwise parsing fails with
"function not defined". -/

/-- A classified word of an action body. -/
inductive ActionTok where
  | field (chain : List String)
  | ident (name : String)
  | kwIf
  | kwRange
  | kwElse
  | kwEnd
  | dot
  deriving Repr, DecidableEq

/-- Split a character list on a separator predicate, keeping empty chunks. -/
def splitOnChar (sep : Char → Bool) : List Char → List (List Char)
  | [] => [[]]
  | c :: rest =>
    let groups := splitOnChar sep rest
    if sep c then [] :: groups
    else
      match groups with
      | g :: gs => (c :: g) :: gs
      | [] => [[c]]

/-- The whitespace-separated words of an action body. -/
def bodyWords (body : List Char) : List (List Char) :=
  (splitOnChar (fun c => c = ' ' || c = '\t' || c = '\n' || c = '\r') body).filter
    (fun w => !w.isEmpty)

/-- Is the word a valid Go identifier (for function names)? -/
def isIdentWord : List Char → Bool
  | [] => false
  | c :: rest => (c.isAlpha || c = '_') && rest.all (fun d => d.isAlphanum || d = '_')

/-- Classify one word of an action body. -/
def classifyWord (w : List Char) : Except TmplError ActionTok :=
  if w = "if".toList then .ok .kwIf
  else if w = "range".toList then .ok .kwRange
  else if w = "else".toList then .ok .kwElse
  else if w = "end".toList then .ok .kwEnd
  else if w = ['.'] then .ok .dot
  else
    match w with
    | '.' :: rest =>
      let segs := splitOnChar (fun c => c = '.') rest
      if segs.all (fun s => isIdentWord s) then
        .ok (.field (segs.map String.mk))
      else
        .error (.parseErr ("bad field syntax: " ++ String.mk w))
    | _ =>
      if isIdentWord w then .ok (.ident (String.mk w))
      else .error (.parseErr ("bad character in action: " ++ String.mk w))

/-- Classify all words of an action body. -/
def classifyBody (body : List Char) : Except TmplError (List ActionTok) :=
  (bodyWords body).mapM classifyWord

/-- Build a pipeline from operand tokens.  The first token may be a function
identifier (which must be registered in `funcs`); field accesses and the dot
are operands; keywords may not appear among operands. -/
def parsePipe (funcs : List String) (toks : List ActionTok) : Except TmplError Pipe := do
  if toks.isEmpty then
    throw (.parseErr "missing value for command")
  let args ← toks.mapM fun t =>
    match t with
    | .field chain => pure (Arg.field chain)
    | .dot => pure Arg.dot
    | .ident name =>
      if name ∈ funcs then pure (Arg.func name)
      else throw (.parseErr ("function " ++ name ++ " not defined"))
    | _ => throw (.parseErr "unexpected keyword in operand position")
  pure { cmds := [{ args := args }] }

/-- How a node-list parse stopped: end of input, at an else clause, or at an
end clause. -/
inductive Term where
  | eof
  | elseT
  | endT
  deriving Repr, DecidableEq

/-- Parse a list of nodes from lexer items, stopping at `else`/`end`/eof.
Fuel decreases on every recursive call; every recursive call also consumes at
least one item, so `items.length + 1` fuel always suffices. -/
def buildNodes (funcs : List String) :
    Nat → List RawItem → Except TmplError (List Node × Term × List RawItem)
  | 0, _ => .error (.parseErr "parser out of fuel")
  | _ + 1, [] => .ok ([], .eof, [])
  | fuel + 1, .text s :: rest => do
    let (ns, t, r) ← buildNodes funcs fuel rest
    pure (Node.text (String.mk s) :: ns, t, r)
  | fuel + 1, .action body :: rest => do
    let toks ← classifyBody body
    match toks with
    | [.kwEnd] => pure ([], .endT, rest)
    | [.kwElse] => pure ([], .elseT, rest)
    | .kwIf :: args => do
      let pipe ← parsePipe funcs args
      let (body1, t1, r1) ← buildNodes funcs fuel rest
      match t1 with
      | .eof => throw (.parseErr "unexpected EOF: unterminated if")
      | .endT => do
        let (ns, t2, r2) ← buildNodes funcs fuel r1
        pure (Node.ifn pipe body1 none :: ns, t2, r2)
      | .elseT => do
        let (body2, t2, r2) ← buildNodes funcs fuel r1
        match t2 with
        | .endT => do
          let (ns, t3, r3) ← buildNodes funcs fuel r2
          pure (Node.ifn pipe body1 (some body2) :: ns, t3, r3)
        | _ => throw (.parseErr "expected end after else")
    | .kwRange :: args => do
      let pipe ← parsePipe funcs args
      let (body1, t1, r1) ← buildNodes funcs fuel rest
      match t1 with
      | .eof => throw (.parseErr "unexpected EOF: unterminated range")
      | .endT => do
        let (ns, t2, r2) ← buildNodes funcs fuel r1
        pure (Node.rangen pipe body1 none :: ns, t2, r2)
      | .elseT => do
        let (body2, t2, r2) ← buildNodes funcs fuel r1
        match t2 with
        | .endT => do
          let (ns, t3, r3) ← buildNodes funcs fuel r2
          pure (Node.rangen pipe body1 (some body2) :: ns, t3, r3)
        | _ => throw (.parseErr "expected end after else")
    | .kwEnd :: _ => throw (.parseErr "unexpected arguments after end")
    | .kwElse :: _ => throw (.parseErr "unexpected arguments after else")
    | _ => do
      let pipe ← parsePipe funcs toks
      let (ns, t, r) ← buildNodes funcs fuel rest
      pure (Node.action pipe :: ns, t, r)

/-- Parse a template string against a set of registered function names,
mirroring `template.New(name).Funcs(funcs).Parse(content)`. -/
def parseTemplate (funcs : List String) (s : String) : Except TmplError (List Node) := do
  let items ← lexTemplate s.toList
  let (ns, t, _) ← buildNodes funcs (items.length + 1) items
  match t with
  | .eof => pure ns
  | .endT => throw (.parseErr "unexpected end")
  | .elseT => throw (.parseErr "unexpected else")

/-! ## Placeholder analysis (template.go)

`IdentifyPlaceholders` parses the template (with *no* registered functions)
and walks the tree: for every action node it records the dot-joined name of
every field argument of every command; for `range` and `if` nodes it recurses
into the body and else body.  The Go code accumulates names in a
`map[string]struct\x7b\x7d`; we model the set as a duplicate-free list in
first-insertion order. -/

/-- Dot-join a field chain, as `strings.Join(fieldNode.Ident, ".")`. -/
def fieldJoin (chain : List String) : String := String.intercalate "." chain

/-- Insert a placeholder name into the accumulated set. -/
def insertPlaceholder (acc : List String) (name : String) : List String :=
  if name ∈ acc then acc else acc ++ [name]

/-- Record the field arguments of every command of a pipeline (the
`action.Pipe` loop of `walk`). -/
def walkPipe (p : Pipe) (acc : List String) : List String :=
  p.cmds.foldl
    (fun acc cmd =>
      cmd.args.foldl
        (fun acc arg =>
          match arg with
          | .field chain => insertPlaceholder acc (fieldJoin chain)
          | _ => acc)
        acc)
    acc

mutual

/-- The recursive AST walk of template.go: actions contribute their pipeline's
field arguments; `range` and `if` nodes are walked through their body and
else body only — their own pipelines are never inspected. -/
def walkNode : Node → List String → List String
  | .text _, acc => acc
  | .action p, acc => walkPipe p acc
  | .rangen _ l e, acc =>
    let acc1 := walkList l acc
    match e with
    | some el => walkList el acc1
    | none => acc1
  | .ifn _ l e, acc =>
    let acc1 := walkList l acc
    match e with
    | some el => walkList el acc1
    | none => acc1

/-- Walk every node of a list node in order. -/
def walkList : List Node → List String → List String
  | [], acc => acc
  | n :: ns, acc => walkList ns (walkNode n acc)

end

/-- Placeholder analysis of template *content*: parse with no registered
functions — exactly as `template.New(name).Parse(content)` does in
`IdentifyPlaceholders` — then walk the tree. -/
def identifyPlaceholdersContent (content : String) : Except TmplError (List String) :=
  match parseTemplate [] content with
  | .error e => .error e
  | .ok nodes => .ok (walkList nodes [])

/-! ## Helper registration and execution (render.go + text/template exec)

`helperFunc` is the function map registered by both `RenderTemplateFile` and
`ReplacePlaceholdersInPath`.  Execution follows text/template with the
default missingkey option: indexing a map with an absent key yields the
invalid value, which prints as "<no value>"; accessing a field of a
non-mapping value is an execution error. -/

/-- The registered helper table of render.go. -/
def helperFunc : List (String × (String → String)) :=
  [("snake", snakeCase), ("usnake", upperSnakeCase),
   ("camel", upperCamelCase), ("lcamel", lowerCamelCase)]

/-- The names under which the helpers are registered. -/
def helperNames : List String := helperFunc.map Prod.fst

/-- Look a helper up by name. -/
def lookupHelper : List (String × (String → String)) → String → Option (String → String)
  | [], _ => none
  | (k, f) :: rest, name => if k = name then some f else lookupHelper rest name

/-- Lexicographic (code-point) comparison of character lists. -/
def charsLt : List Char → List Char → Bool
  | [], [] => false
  | [], _ :: _ => true
  | _ :: _, [] => false
  | a :: as, b :: bs =>
    if a.toNat < b.toNat then true
    else if b.toNat < a.toNat then false
    else charsLt as bs

/-- Lexicographic (code-point) comparison of strings. -/
def strLt (a b : String) : Bool := charsLt a.toList b.toList

/-- Insert into a list sorted by a string key. -/
def insertByKey (key : α → String) (x : α) : List α → List α
  | [] => [x]
  | y :: ys => if strLt (key x) (key y) then x :: y :: ys else y :: insertByKey key x ys

/-- Sort by a string key (Go's fmt prints map entries in key order, and
`range` over a map visits keys in sorted order). -/
def sortByKey (key : α → String) (xs : List α) : List α :=
  xs.foldr (insertByKey key) []

mutual

/-- Structural size of a value (bounds the nesting depth). -/
def valueSize : Value → Nat
  | .str _ => 1
  | .int _ => 1
  | .bool _ => 1
  | .map m => 1 + entriesSize m
  | .list l => 1 + elemsSize l

/-- Structural size of map entries. -/
def entriesSize : List (String × Value) → Nat
  | [] => 0
  | (_, v) :: rest => 1 + valueSize v + entriesSize rest

/-- Structural size of list elements. -/
def elemsSize : List Value → Nat
  | [] => 0
  | v :: rest => 1 + valueSize v + elemsSize rest

end

/-- Textual form of a value, fuelled version (the fuel bounds nesting depth;
`valueSize` always suffices).  Scalars use their canonical Go text. -/
def goFmtF : Nat → Value → String
  | 0, _ => ""
  | fuel + 1, v =>
    match v with
    | .str s => s
    | .int n => toString n
    | .bool b => if b then "true" else "false"
    | .list l => "[" ++ String.intercalate " " (l.map (goFmtF fuel)) ++ "]"
    | .map m =>
      "map[" ++
        String.intercalate " "
          ((sortByKey Prod.fst m).map (fun kv => kv.1 ++ ":" ++ goFmtF fuel kv.2)) ++ "]"

/-- Textual form of a value. -/
def goFmt (v : Value) : String := goFmtF (valueSize v) v

/-- Print the result of a pipeline: the invalid value prints as
"<no value>", other values by their textual form. -/
def printValue : Option Value → String
  | none => "<no value>"
  | some v => goFmt v

/-- One field-access step.  `none` models reflect's invalid value: under the
default missingkey option a field access on it stays invalid; indexing a map
with an absent key yields invalid; a field access on a non-mapping value is
an execution error. -/
def evalFieldStep : Option Value → String → Except TmplError (Option Value)
  | none, _ => .ok none
  | some (.map m), name => .ok (lookupKey m name)
  | some _, name => .error (.execErr ("can't evaluate field " ++ name))

/-- Evaluate a dot-separated field chain against the current dot. -/
def evalFieldChain (dot : Option Value) (chain : List String) :
    Except TmplError (Option Value) :=
  chain.foldlM evalFieldStep dot

/-- Call a registered helper.  The four helpers take exactly one string. -/
def callHelper (name : String) (argVals : List (Option Value)) :
    Except TmplError (Option Value) :=
  match lookupHelper helperFunc name with
  | none => .error (.execErr ("function " ++ name ++ " not defined"))
  | some f =>
    match argVals with
    | [some (.str s)] => .ok (some (.str (f s)))
    | [some _] => .error (.execErr ("wrong type for argument to " ++ name))
    | [none] => .error (.execErr ("invalid value for argument to " ++ name))
    | _ => .error (.execErr ("wrong number of args for " ++ name))

/-- Evaluate one operand. -/
def evalArg (dot : Option Value) : Arg → Except TmplError (Option Value)
  | .field chain => evalFieldChain dot chain
  | .dot => .ok dot
  | .func name => callHelper name []

/-- Evaluate one command; `final` is the value piped in from the previous
command, appended as a last argument. -/
def evalCmd (dot : Option Value) (cmd : TCmd) (final : Option (Option Value)) :
    Except TmplError (Option Value) :=
  match cmd.args with
  | [] => .error (.execErr "empty command")
  | .func name :: rest => do
    let vals ← rest.mapM (evalArg dot)
    callHelper name (vals ++ (match final with | some v => [v] | none => []))
  | [arg] =>
    match final with
    | none => evalArg dot arg
    | some _ => .error (.execErr "can't give argument to non-function")
  | _ => .error (.execErr "can't give argument to non-function")

/-- Evaluate a pipeline: commands chained left to right. -/
def evalPipe (dot : Option Value) (p : Pipe) : Except TmplError (Option Value) :=
  match p.cmds with
  | [] => .error (.execErr "missing value for command")
  | c :: cs => do
    let v0 ← evalCmd dot c none
    cs.foldlM (fun acc c => evalCmd dot c (some acc)) v0

/-- Go's truth test for `if`: true booleans, non-zero numbers, non-empty
strings, non-empty collections. -/
def isTrueValue : Value → Bool
  | .bool b => b
  | .str s => !s.isEmpty
  | .int n => decide (n ≠ 0)
  | .list l => !l.isEmpty
  | .map m => !m.isEmpty

/-- A pending execution task: a node list under a dot value, or the
per-element iterations of a range body. -/
inductive ExecJob where
  | nodes (ns : List Node) (dot : Option Value)
  | elems (l : List Node) (vs : List Value)

/-- Execute a task.  The output is streamed: on an error the pair carries the
output already emitted before the failure, mirroring incremental writes to
the destination.  The recursion is structural on fuel so that the
interpreter reduces by computation; callers supply fuel that covers every
terminating execution (fuel exhaustion reports an execution error, a case no
real run of the embedded programs reaches). -/
def execF : Nat → ExecJob → String × Option TmplError
  | 0, _ => ("", some (.execErr "execution out of fuel"))
  | _ + 1, .nodes [] _ => ("", none)
  | fuel + 1, .nodes (n :: ns) dot =>
    let head : String × Option TmplError :=
      match n with
      | .text s => (s, none)
      | .action p =>
        (match evalPipe dot p with
         | .error e => ("", some e)
         | .ok v => (printValue v, none))
      | .ifn p l e =>
        (match evalPipe dot p with
         | .error er => ("", some er)
         | .ok v =>
           match v with
           | none => ("", some (.execErr "if can't use undefined value"))
           | some tv =>
             if isTrueValue tv then execF fuel (.nodes l dot)
             else
               match e with
               | some el => execF fuel (.nodes el dot)
               | none => ("", none))
      | .rangen p l e =>
        (match evalPipe dot p with
         | .error er => ("", some er)
         | .ok v =>
           match v with
           | some (.list elems) =>
             if elems.isEmpty then
               match e with
               | some el => execF fuel (.nodes el dot)
               | none => ("", none)
             else execF fuel (.elems l elems)
           | some (.map m) =>
             if m.isEmpty then
               match e with
               | some el => execF fuel (.nodes el dot)
               | none => ("", none)
             else execF fuel (.elems l ((sortByKey Prod.fst m).map Prod.snd))
           | _ => ("", some (.execErr "range can't iterate over value")))
    match head with
    | (s, some e) => (s, some e)
    | (s, none) =>
      let (s2, r) := execF fuel (.nodes ns dot)
      (s ++ s2, r)
  | _ + 1, .elems _ [] => ("", none)
  | fuel + 1, .elems l (v :: vs) =>
    match execF fuel (.nodes l (some v)) with
    | (s, some e) => (s, some e)
    | (s, none) =>
      let (s2, r) := execF fuel (.elems l vs)
      (s ++ s2, r)

/-- Fuel that covers executing the templates of `content` against `data`:
every node visit comes from the source text, every range iteration from the
data value, so the product dominates the recursion depth. -/
def execFuel (content : String) (data : Data) : Nat :=
  (content.toList.length + 2) * (entriesSize data + 2)

/-- Execute parsed template nodes against a data context: dot is bound to
the data map (`tmpl.Execute(w, data)`). -/
def runNodes (content : String) (nodes : List Node) (data : Data) :
    String × Option TmplError :=
  execF (execFuel content data) (.nodes nodes (some (.map data)))

/-- Parse and execute template text against a data context, as both
`RenderTemplateFile` and `ReplacePlaceholdersInPath` do: parse with the
helper functions registered, then execute with dot bound to the data map. -/
def renderString (funcs : List String) (s : String) (data : Data) :
    Except TmplError String :=
  match parseTemplate funcs s with
  | .error e => .error e
  | .ok nodes =>
    match runNodes s nodes data with
    | (_, some e) => .error e
    | (out, none) => .ok out

/-- ReplacePlaceholdersInPath (render.go): parse the path string with the
helpers registered and execute it into a string builder. -/
def ReplacePlaceholdersInPath (path : String) (data : Data) :
    Except TmplError String :=
  renderString helperNames path data

/-! ## Filesystem model

The file-level operations of render.go, fs.go and apply.go are modelled over
an explicit filesystem state: an association list from paths (segment lists)
to entries, first match winning.  Permission bits are `Nat`. -/

/-- A filesystem entry: a directory or a file with content and permissions. -/
inductive Entry where
  | dir (perm : Nat)
  | file (content : String) (perm : Nat)
  deriving Repr, DecidableEq

/-- A path, as a list of segments (`filepath.Join` of the segments). -/
abbrev Path := List String

/-- A filesystem state. -/
structure FS where
  entries : List (Path × Entry)
  deriving Repr, DecidableEq

/-- Find the entry at a path in an entry list. -/
def findEntry : List (Path × Entry) → Path → Option Entry
  | [], _ => none
  | (q, e) :: rest, p => if q = p then some e else findEntry rest p

/-- Replace (or append) the entry at a path in an entry list. -/
def setEntry : List (Path × Entry) → Path → Entry → List (Path × Entry)
  | [], p, e => [(p, e)]
  | (q, e0) :: rest, p, e =>
    if q = p then (p, e) :: rest else (q, e0) :: setEntry rest p e

/-- Look up the entry at a path. -/
def FS.lookup (fs : FS) (p : Path) : Option Entry :=
  findEntry fs.entries p

/-- Set (replace or add) the entry at a path. -/
def FS.set (fs : FS) (p : Path) (e : Entry) : FS :=
  ⟨setEntry fs.entries p e⟩

/-- `os.ReadFile`: the content of a file, or an I/O error. -/
def readFile (fs : FS) (p : Path) : Except TmplError String :=
  match fs.lookup p with
  | some (.file c _) => .ok c
  | some (.dir _) => .error (.ioErr "is a directory")
  | none => .error (.ioErr "no such file")

/-- `os.Stat(...).Mode()`: the permission bits of the entry. -/
def statPerm (fs : FS) (p : Path) : Except TmplError Nat :=
  match fs.lookup p with
  | some (.file _ perm) => .ok perm
  | some (.dir perm) => .ok perm
  | none => .error (.ioErr "no such file")

/-- `os.Chmod`: set the permission bits of an existing entry. -/
def chmod (fs : FS) (p : Path) (perm : Nat) : Except TmplError FS :=
  match fs.lookup p with
  | some (.file c _) => .ok (fs.set p (.file c perm))
  | some (.dir _) => .ok (fs.set p (.dir perm))
  | none => .error (.ioErr "no such file")

/-- Does the parent directory of `p` exist (the empty path is the root and
always exists)? -/
def parentExists (fs : FS) (p : Path) : Bool :=
  p.dropLast.isEmpty ||
    match fs.lookup p.dropLast with
    | some (.dir _) => true
    | _ => false

/-- `os.Create`: truncate-create a file (default creation permissions 0o666,
before any chmod); fails if the parent directory is missing or the path is a
directory. -/
def createFile (fs : FS) (p : Path) : Except TmplError FS :=
  if !parentExists fs p then .error (.ioErr "failed to create destination file")
  else
    match fs.lookup p with
    | some (.dir _) => .error (.ioErr "is a directory")
    | _ => .ok (fs.set p (.file "" 0o666))

/-- Worker for `mkdirAll`: create the remaining segments below `done`. -/
def mkdirAllGo (perm : Nat) : FS → Path → List String → Except TmplError FS
  | fs, _, [] => .ok fs
  | fs, done, seg :: rest =>
    let q := done ++ [seg]
    match fs.lookup q with
    | some (.dir _) => mkdirAllGo perm fs q rest
    | some (.file _ _) => .error (.ioErr "not a directory")
    | none => mkdirAllGo perm (fs.set q (.dir perm)) q rest

/-- `os.MkdirAll`: create every missing ancestor of `p` (and `p` itself) as a
directory with the given permissions; existing directories are left
untouched; an existing file on the way is an error. -/
def mkdirAll (fs : FS) (p : Path) (perm : Nat) : Except TmplError FS :=
  mkdirAllGo perm fs [] p

/-- RenderTemplateFile (render.go): read the template, parse it with the
helpers registered, create the destination file, execute the template
writing output (partial output stays written on an execution error — the
file is only closed, never removed), then mirror the source permissions onto
the destination.  Returns the resulting filesystem plus the error, if any. -/
def RenderTemplateFile (fs : FS) (templatePath destPath : Path) (data : Data) :
    FS × Option TmplError :=
  match readFile fs templatePath with
  | .error e => (fs, some e)
  | .ok content =>
    match parseTemplate helperNames content with
    | .error e => (fs, some e)
    | .ok nodes =>
      match createFile fs destPath with
      | .error e => (fs, some e)
      | .ok fs1 =>
        let (out, execErr) := runNodes content nodes data
        let fs2 := fs1.set destPath (.file out 0o666)
        match execErr with
        | some e => (fs2, some e)
        | none =>
          match statPerm fs2 templatePath with
          | .error e => (fs2, some e)
          | .ok srcPerm =>
            match chmod fs2 destPath srcPerm with
            | .error e => (fs2, some e)
            | .ok fs3 => (fs3, none)

/-- CopyFile (fs.go): open and read the source, create the destination, copy
the bytes, then mirror the source permissions onto the destination. -/
def CopyFile (fs : FS) (src dst : Path) : FS × Option TmplError :=
  match readFile fs src with
  | .error e => (fs, some e)
  | .ok content =>
    match createFile fs dst with
    | .error e => (fs, some e)
    | .ok fs1 =>
      let fs2 := fs1.set dst (.file content 0o666)
      match statPerm fs2 src with
      | .error e => (fs2, some e)
      | .ok srcPerm =>
        match chmod fs2 dst srcPerm with
        | .error e => (fs2, some e)
        | .ok fs3 => (fs3, none)

/-! ## The apply tree walk (apply.go)

`filepath.WalkDir` visits the template root and then descends depth-first,
siblings in lexical order.  For each entry apply.go computes
`relPath = filepath.Rel(templatePath, path)` and
`destPath = filepath.Join(outputDir, relPath)` — note: the relative path is
joined verbatim, `ReplacePlaceholdersInPath` is not invoked.  Directories are
created with `MkdirAll(destPath, d.Type().Perm())`; since `DirEntry.Type()`
keeps only the file-type bits, `d.Type().Perm()` is always `0`.  A file named
with the `.tmpl` suffix is rendered to the destination with the suffix
stripped from the final segment; any other file is copied. -/

/-- The sorted child names of a directory (WalkDir reads directories in
lexical order). -/
def childNames (fs : FS) (p : Path) : List String :=
  sortByKey id
    ((fs.entries.filterMap fun q =>
      match q with
      | (path, _) =>
        if path.length == p.length + 1 && path.take p.length == p then
          path.getLast?
        else none))

/-- Does the name carry the template marker suffix? -/
def hasTmplSuffix (name : String) : Bool :=
  name.toList.reverse.take 5 = ".tmpl".toList.reverse

/-- Strip the trailing template marker from a name. -/
def stripTmplSuffix (name : String) : String :=
  if hasTmplSuffix name then String.mk (name.toList.take (name.toList.length - 5))
  else name

/-- Strip the trailing `.tmpl` of the final segment of a path
(`strings.TrimSuffix(destPath, ".tmpl")`). -/
def stripTmplLast (p : Path) : Path :=
  match p.getLast? with
  | none => p
  | some name => p.dropLast ++ [stripTmplSuffix name]

/-- A pending walk task: one entry to visit, or the remaining children of a
directory. -/
inductive WalkJob where
  | entry (rel : Path)
  | children (rel : Path) (names : List String)

/-- The walk of apply.go, structural on fuel (callers supply fuel covering
the whole tree).  Visiting an entry at `tplRoot ++ rel` mirrors the WalkDir
callback: a directory is created at `destPath = outRoot ++ rel` (with
`d.Type().Perm()`, which is always `0`) and its children are visited in
lexical order; a `.tmpl` file is rendered to the destination with the suffix
stripped; any other file is copied.  The walk aborts at the first error. -/
def walkGo (data : Data) (tplRoot outRoot : Path) :
    Nat → FS → WalkJob → FS × Option TmplError
  | 0, fs, _ => (fs, some (.ioErr "walk out of fuel"))
  | fuel + 1, fs, .entry rel =>
    let path := tplRoot ++ rel
    let destPath := outRoot ++ rel
    match fs.lookup path with
    | none => (fs, some (.ioErr "no such file"))
    | some (.dir _) =>
      match mkdirAll fs destPath 0 with
      | .error e => (fs, some e)
      | .ok fs1 => walkGo data tplRoot outRoot fuel fs1 (.children rel (childNames fs1 path))
    | some (.file _ _) =>
      match rel.getLast? with
      | none => (fs, some (.ioErr "template root is a file"))
      | some name =>
        if hasTmplSuffix name then
          RenderTemplateFile fs path (stripTmplLast destPath) data
        else
          CopyFile fs path destPath
  | _ + 1, fs, .children _ [] => (fs, none)
  | fuel + 1, fs, .children rel (name :: rest) =>
    match walkGo data tplRoot outRoot fuel fs (.entry (rel ++ [name])) with
    | (fs1, some e) => (fs1, some e)
    | (fs1, none) => walkGo data tplRoot outRoot fuel fs1 (.children rel rest)

/-- applyCmd (apply.go), with the CLI collaborators elided: check the
template path exists, create the output directory with permissions 0o750,
then walk the template tree rendering `.tmpl` files and copying the rest. -/
def applyCmd (fs : FS) (templatePath outputDir : Path) (data : Data) :
    FS × Option TmplError :=
  match fs.lookup templatePath with
  | none => (fs, some (.ioErr "template path not found"))
  | some _ =>
    match mkdirAll fs outputDir 0o750 with
    | .error e => (fs, some e)
    | .ok fs1 =>
      walkGo data templatePath outputDir
        ((fs1.entries.length + 2) * (fs1.entries.length + 2)) fs1 (.entry [])

/-! ## Shared lemmas about the filesystem model -/

theorem findEntry_setEntry_self (es : List (Path × Entry)) (p : Path) (e : Entry) :
    findEntry (setEntry es p e) p = some e := by
  induction es with
  | nil => simp [setEntry, findEntry]
  | cons qe rest ih =>
    obtain ⟨q, e0⟩ := qe
    by_cases hq : q = p
    · subst hq
      simp [setEntry, findEntry]
    · simp [setEntry, findEntry, hq, ih]

theorem findEntry_setEntry_ne (es : List (Path × Entry)) (p q : Path) (e : Entry)
    (h : q ≠ p) : findEntry (setEntry es p e) q = findEntry es q := by
  induction es with
  | nil => simp [setEntry, findEntry, Ne.symm h]
  | cons qe rest ih =>
    obtain ⟨q0, e0⟩ := qe
    by_cases hq : q0 = p
    · subst hq
      simp [setEntry, findEntry, Ne.symm h]
    · simp [setEntry, findEntry, hq, ih]

theorem FS.lookup_set_self (fs : FS) (p : Path) (e : Entry) :
    (fs.set p e).lookup p = some e := by
  simpa [FS.set, FS.lookup] using findEntry_setEntry_self fs.entries p e

theorem FS.lookup_set_ne (fs : FS) (p q : Path) (e : Entry) (h : q ≠ p) :
    (fs.set p e).lookup q = fs.lookup q := by
  simpa [FS.set, FS.lookup] using findEntry_setEntry_ne fs.entries p q e h

/-! ## Concrete fixtures used by the claims -/

/-- A template tree whose only child is a directory literally named with a
path placeholder (the scenario of the spec and of apply_test.go). -/
def fsProjDir : FS :=
  ⟨[(["tpl"], .dir 0o755),
    (["tpl", "\x7b\x7b.project_name\x7d\x7d"], .dir 0o755)]⟩

/-- Data context binding project_name to "acme". -/
def dataProj : Data := [("project_name", .str "acme")]

/-- A template tree with one marked template file and one plain file. -/
def fsTwoFiles : FS :=
  ⟨[(["tpl"], .dir 0o755),
    (["tpl", "main.go.tmpl"], .file "package \x7b\x7b.pkg\x7d\x7d" 0o644),
    (["tpl", "README.md"], .file "# hi" 0o644)]⟩

/-- Data context binding pkg to "main". -/
def dataPkg : Data := [("pkg", .str "main")]

/-- A template whose execution fails midway: `.name.x` accesses a field of a
string value. -/
def fsFailing : FS :=
  ⟨[(["tpl"], .dir 0o755), (["out"], .dir 0o750),
    (["tpl", "t.tmpl"], .file "Hello \x7b\x7b.name.x\x7d\x7d!" 0o644)]⟩

/-- Data context binding name to the string "John". -/
def dataJohn : Data := [("name", .str "John")]

/-- The files of a filesystem strictly below a root path. -/
def filesUnder (fs : FS) (root : Path) : List (Path × Entry) :=
  fs.entries.filter fun pe =>
    match pe with
    | (p, .file _ _) => p.length > root.length && p.take root.length == root
    | (_, .dir _) => false

/-! ## Claim theorems -/

/-- C1: the claim states that during Apply's walk every destination path is
the output root joined with the path-placeholder *rendering* of the relative
path, so a directory literally named with a project_name placeholder and
data binding project_name to "acme" is materialized as a directory named
"acme".  The code computes `destPath = filepath.Join(outputDir, relPath)`
without ever invoking `ReplacePlaceholdersInPath`: the walk succeeds but
creates a directory literally named with the placeholder text, and no
directory named "acme".  (The path renderer itself would produce "acme", as
the first conjunct shows; the repository's own apply_test.go expects the
rendered name, so this is a bug in apply.go.) -/
theorem apply_walk_creates_literal_placeholder_dir :
    ReplacePlaceholdersInPath "\x7b\x7b.project_name\x7d\x7d" dataProj = .ok "acme" ∧
    (applyCmd fsProjDir ["tpl"] ["out"] dataProj).2 = none ∧
    (applyCmd fsProjDir ["tpl"] ["out"] dataProj).1.lookup
      ["out", "\x7b\x7b.project_name\x7d\x7d"] = some (.dir 0) ∧
    (applyCmd fsProjDir ["tpl"] ["out"] dataProj).1.lookup ["out", "acme"] = none := by
  refine ⟨by decide, by decide, by decide, by decide⟩

/-- C5: applying a tree with one marked template file `main.go.tmpl` of
content `package` followed by a pkg placeholder, with data binding pkg to
"main", plus a plain `README.md` of content `# hi`, to an empty output
directory succeeds and yields exactly two output files: `main.go` containing
`package main` and `README.md` containing `# hi`, the marker suffix absent
from every output name. -/
theorem apply_two_files_exact_output :
    (applyCmd fsTwoFiles ["tpl"] ["out"] dataPkg).2 = none ∧
    filesUnder (applyCmd fsTwoFiles ["tpl"] ["out"] dataPkg).1 ["out"] =
      [(["out", "README.md"], .file "# hi" 0o644),
       (["out", "main.go"], .file "package main" 0o644)] ∧
    (filesUnder (applyCmd fsTwoFiles ["tpl"] ["out"] dataPkg).1 ["out"]).all
      (fun pe => !hasTmplSuffix ((pe.1.getLast?).getD "")) = true := by
  refine ⟨by decide, by decide, by decide⟩

/-- C6: placeholder analysis of a template referencing `.a`, `.a.b` and `.a`
again yields exactly the placeholder set containing "a" and "a.b": the
repeated reference collapses and the nested chain is recorded whole.  (The
model accumulates the Go map's keys in first-insertion order.) -/
theorem identify_placeholders_dedup_nested :
    identifyPlaceholdersContent
      "\x7b\x7b.a\x7d\x7d\x7b\x7b.a.b\x7d\x7d\x7b\x7b.a\x7d\x7d" = .ok ["a", "a.b"] := by
  decide

/-- C7: the four registered helpers satisfy the spec's examples —
snake("someVariableName") = "some_variable_name", usnake the upper-case of
the same splitting, camel("some_variable_name") = "SomeVariableName",
lcamel the same with the first word lower-cased — and each maps the empty
string to the empty string.  Stated through the registration table
`helperFunc` of render.go. -/
theorem helper_functions_examples :
    ((lookupHelper helperFunc "snake").map (fun f => f "someVariableName") =
      some "some_variable_name") ∧
    ((lookupHelper helperFunc "usnake").map (fun f => f "someVariableName") =
      some "SOME_VARIABLE_NAME") ∧
    ((lookupHelper helperFunc "camel").map (fun f => f "some_variable_name") =
      some "SomeVariableName") ∧
    ((lookupHelper helperFunc "lcamel").map (fun f => f "some_variable_name") =
      some "someVariableName") ∧
    ((lookupHelper helperFunc "snake").map (fun f => f "") = some "") ∧
    ((lookupHelper helperFunc "usnake").map (fun f => f "") = some "") ∧
    ((lookupHelper helperFunc "camel").map (fun f => f "") = some "") ∧
    ((lookupHelper helperFunc "lcamel").map (fun f => f "") = some "") := by
  refine ⟨by decide, by decide, by decide, by decide, by decide, by decide, by decide,
    by decide⟩

/-! ## Further shared lemmas -/

theorem string_mk_toList (s : String) : String.mk s.toList = s := rfl

theorem string_of_toList_eq_nil (s : String) (h : s.toList = []) : s = "" := by
  cases s with
  | mk d =>
    have hd : d = [] := h
    rw [hd]

theorem execFuel_succ (s : String) (data : Data) :
    execFuel s data =
      (s.toList.length * (entriesSize data + 2) + 2 * entriesSize data + 2) + 2 := by
  simp [execFuel]
  ring

theorem execF_nil_nodes (fuel : Nat) (dot : Option Value) :
    execF (fuel + 1) (.nodes [] dot) = ("", none) := rfl

theorem execF_single_text (fuel : Nat) (s : String) (dot : Option Value) :
    execF (fuel + 2) (.nodes [.text s] dot) = (s, none) := by
  simp [execF, String.append_empty]

theorem execF_single_action (fuel : Nat) (p : Pipe) (dot : Option Value) :
    execF (fuel + 2) (.nodes [.action p] dot) =
      (match evalPipe dot p with
       | .error e => ("", some e)
       | .ok v => (printValue v, none)) := by
  cases h : evalPipe dot p with
  | error e => simp [execF, h]
  | ok v => simp [execF, h, String.append_empty]

/-- C10: the placeholder walk records field arguments of plain action nodes
and recurses only into the bodies and else bodies of `if` and `range` nodes:
the result on an `if` or `range` node is independent of the node's pipeline
(the pipeline is universally quantified on the left and absent on the
right), and analysing a template whose only field access sits in an `if`
pipeline yields no placeholder at all. -/
theorem walk_never_inspects_if_range_pipes :
    (∀ (p : Pipe) (l : List Node) (e : Option (List Node)) (acc : List String),
      walkNode (.ifn p l e) acc =
        match e with
        | some el => walkList el (walkList l acc)
        | none => walkList l acc) ∧
    (∀ (p : Pipe) (l : List Node) (e : Option (List Node)) (acc : List String),
      walkNode (.rangen p l e) acc =
        match e with
        | some el => walkList el (walkList l acc)
        | none => walkList l acc) ∧
    identifyPlaceholdersContent "\x7b\x7bif .flag\x7d\x7dtext\x7b\x7bend\x7d\x7d" =
      .ok [] := by
  refine ⟨fun p l e acc => ?_, fun p l e acc => ?_, by decide⟩
  · cases e <;> rfl
  · cases e <;> rfl

/-- C4 counterexample: the claim states that placeholder analysis of a
template passing a field to a registered helper succeeds; but
`IdentifyPlaceholders` parses with `template.New(name).Parse` — without
registering the helper functions — so parsing a template containing a snake
helper call fails with "function not defined" before any walk happens. -/
theorem identify_helper_call_fails_counterexample :
    identifyPlaceholdersContent "\x7b\x7bsnake .name\x7d\x7d" =
      .error (.parseErr "function snake not defined") := by
  decide

/-- C4 (amended): for every one of the four registered helper names, the
placeholder analysis of a template that passes a field access to that helper
fails with a parse error naming the undefined function, because the
analyzer's template carries no registered functions; consequently a field
passed to a helper is never recorded. -/
theorem identify_helper_call_parse_error (h : String) (hmem : h ∈ helperNames) :
    identifyPlaceholdersContent ("\x7b\x7b" ++ h ++ " .name\x7d\x7d") =
      .error (.parseErr ("function " ++ h ++ " not defined")) := by
  simp [helperNames, helperFunc] at hmem
  rcases hmem with h1 | h1 | h1 | h1 <;> subst h1 <;> decide

/-- C4 witness: the amended statement applied to the snake helper. -/
theorem identify_helper_call_parse_error_witness :
    "snake" ∈ helperNames ∧
      identifyPlaceholdersContent ("\x7b\x7b" ++ "snake" ++ " .name\x7d\x7d") =
        .error (.parseErr ("function " ++ "snake" ++ " not defined")) :=
  ⟨by decide, identify_helper_call_parse_error "snake" (by decide)⟩

/-- C2 counterexample: the claim states that rendering a template
referencing a missing top-level key fails with a render error; but Go's
executor runs with the default missingkey option, under which indexing a map
with an absent key yields the invalid value, printed as "<no value>": the
render *succeeds*.  Here the empty data context lacks the key and the render
returns ok. -/
theorem render_missing_key_succeeds_counterexample :
    lookupKey [] "missing" = none ∧
      renderString helperNames "\x7b\x7b.missing\x7d\x7d" [] = .ok "<no value>" := by
  refine ⟨rfl, by decide⟩

/-- C2 (amended): for every data context lacking the top-level key missing,
rendering a template referencing that field succeeds and substitutes
"<no value>" (no error is returned); only invalid accesses such as a field
of a non-mapping value raise an execution error. -/
theorem render_missing_key_emits_no_value (data : Data)
    (h : lookupKey data "missing" = none) :
    renderString helperNames "\x7b\x7b.missing\x7d\x7d" data = .ok "<no value>" := by
  have hp : parseTemplate helperNames "\x7b\x7b.missing\x7d\x7d" =
      .ok [Node.action ⟨[⟨[Arg.field ["missing"]]⟩]⟩] := rfl
  have hpipe : evalPipe (some (.map data)) ⟨[⟨[Arg.field ["missing"]]⟩]⟩ = .ok none := by
    simp [evalPipe, evalCmd, evalArg, evalFieldChain, evalFieldStep, h]
  simp [renderString, hp, runNodes, execFuel_succ, execF_single_action, hpipe, printValue]

/-- C2 witness: the amended statement applied to the empty data context. -/
theorem render_missing_key_emits_no_value_witness :
    lookupKey [] "missing" = none ∧
      renderString helperNames "\x7b\x7b.missing\x7d\x7d" [] = .ok "<no value>" :=
  ⟨rfl, render_missing_key_emits_no_value [] rfl⟩

theorem except_bind_ok {α β ε : Type} (a : α) (f : α → Except ε β) :
    (Except.ok a >>= f : Except ε β) = f a := rfl

theorem lex_no_action (cs : List Char) (h : findOpen cs = none) :
    lexTemplate cs = .ok (if cs.isEmpty then [] else [.text cs]) := by
  simp [lexTemplate, lexAux, h]

theorem parse_no_action (funcs : List String) (s : String)
    (h : findOpen s.toList = none) :
    parseTemplate funcs s = .ok (if s.toList.isEmpty then [] else [Node.text s]) := by
  have hlex := lex_no_action s.toList h
  cases hcs : s.toList with
  | nil =>
    rw [hcs] at hlex
    simp at hlex
    have hcs' : s.data = [] := hcs
    simp [parseTemplate, hcs, hcs', hlex, buildNodes, except_bind_ok]
    rfl
  | cons c rest =>
    rw [hcs] at hlex
    simp at hlex
    have hcs' : s.data = c :: rest := hcs
    simp [parseTemplate, hcs, hcs', hlex, buildNodes, except_bind_ok]
    rw [← hcs']
    rfl

/-- C8: for every input string in which the lexer finds no action delimiter
(no action syntax) and every data context, rendering is the identity — both
for the generic content render (any registered function set) and for the
path render `ReplacePlaceholdersInPath`; in particular the empty string
renders to the empty string. -/
theorem render_action_free_identity (funcs : List String) (s : String) (data : Data)
    (h : findOpen s.toList = none) :
    renderString funcs s data = .ok s ∧ ReplacePlaceholdersInPath s data = .ok s := by
  have main : ∀ fns : List String, renderString fns s data = .ok s := by
    intro fns
    have hp := parse_no_action fns s h
    cases hcs : s.toList with
    | nil =>
      rw [hcs] at hp
      simp at hp
      have hs := string_of_toList_eq_nil s hcs
      subst hs
      simp [renderString, hp, runNodes, execFuel_succ, execF_nil_nodes]
    | cons c rest =>
      rw [hcs] at hp
      simp at hp
      simp [renderString, hp, runNodes, execFuel_succ, execF_single_text]
  exact ⟨main funcs, main helperNames⟩

/-- C8 witness: the identity at a concrete action-free path and a concrete
data context. -/
theorem render_action_free_identity_witness :
    findOpen "static/config".toList = none ∧
      (renderString helperNames "static/config" [("service", Value.str "myapp")] =
          .ok "static/config" ∧
        ReplacePlaceholdersInPath "static/config" [("service", Value.str "myapp")] =
          .ok "static/config") :=
  ⟨by decide,
    render_action_free_identity helperNames "static/config"
      [("service", Value.str "myapp")] (by decide)⟩

/-- C3 counterexample: the claim states that a render failing at execution
time leaves no destination file behind; but `RenderTemplateFile` creates the
destination with `os.Create` *before* executing the template and never
removes it, so after the failing render of a template accessing a field of a
string value, the destination file exists and holds the partial output
emitted before the failure. -/
theorem render_exec_error_leaves_file_counterexample :
    (RenderTemplateFile fsFailing ["tpl", "t.tmpl"] ["out", "t"] dataJohn).2 =
      some (.execErr "can't evaluate field x") ∧
    (RenderTemplateFile fsFailing ["tpl", "t.tmpl"] ["out", "t"] dataJohn).1.lookup
      ["out", "t"] = some (.file "Hello " 0o666) := by
  refine ⟨by decide, by decide⟩

/-- C3 (amended): for every template file whose render fails at execution
time (after a successful read, parse and create), the destination file has
already been created and is left behind holding the partial output streamed
before the failure, with the creation-time permissions; the error is
returned alongside. -/
theorem render_exec_error_leaves_file_behind
    (fs : FS) (tp dp : Path) (data : Data) (content : String) (nodes : List Node)
    (fs1 : FS) (e : TmplError)
    (h1 : readFile fs tp = .ok content)
    (h2 : parseTemplate helperNames content = .ok nodes)
    (h3 : createFile fs dp = .ok fs1)
    (h4 : (runNodes content nodes data).2 = some e) :
    RenderTemplateFile fs tp dp data =
      (fs1.set dp (.file (runNodes content nodes data).1 0o666), some e) ∧
    (RenderTemplateFile fs tp dp data).1.lookup dp =
      some (.file (runNodes content nodes data).1 0o666) := by
  rcases hr : runNodes content nodes data with ⟨out, execErr⟩
  rw [hr] at h4
  simp at h4
  subst h4
  have main : RenderTemplateFile fs tp dp data =
      (fs1.set dp (.file out 0o666), some e) := by
    simp [RenderTemplateFile, h1, h2, h3, hr]
  constructor
  · simpa using main
  · rw [main]
    simpa using FS.lookup_set_self fs1 dp (.file out 0o666)

/-- The parse tree of the failing template of the C3 scenario. -/
def nodesFailing : List Node :=
  [.text "Hello ", .action ⟨[⟨[Arg.field ["name", "x"]]⟩]⟩, .text "!"]

/-- C3 witness: the amended statement at the concrete failing scenario. -/
theorem render_exec_error_leaves_file_behind_witness :
    readFile fsFailing ["tpl", "t.tmpl"] = .ok "Hello \x7b\x7b.name.x\x7d\x7d!" ∧
    (RenderTemplateFile fsFailing ["tpl", "t.tmpl"] ["out", "t"] dataJohn).1.lookup
      ["out", "t"] =
      some (.file
        (runNodes "Hello \x7b\x7b.name.x\x7d\x7d!" nodesFailing dataJohn).1 0o666) :=
  ⟨by decide,
    (render_exec_error_leaves_file_behind fsFailing ["tpl", "t.tmpl"] ["out", "t"]
      dataJohn "Hello \x7b\x7b.name.x\x7d\x7d!" nodesFailing
      (fsFailing.set ["out", "t"] (.file "" 0o666)) (.execErr "can't evaluate field x")
      (by decide) rfl (by decide) (by decide)).2⟩

theorem statPerm_set_file_self (fs : FS) (p : Path) (c : String) (perm : Nat) :
    statPerm (fs.set p (.file c perm)) p = .ok perm := by
  simp [statPerm, FS.lookup_set_self]

theorem statPerm_set_ne (fs : FS) (p q : Path) (e : Entry) (h : q ≠ p) :
    statPerm (fs.set p e) q = statPerm fs q := by
  simp [statPerm, FS.lookup_set_ne _ _ _ _ h]

/-- C9: after every successful file-level render and after every successful
plain-file copy, the destination's permission bits equal the source's
permission bits (both read in the resulting filesystem; the source is
untouched when the two paths differ, and the equality is trivial when they
coincide). -/
theorem render_and_copy_preserve_permissions :
    (∀ (fs : FS) (tp dp : Path) (data : Data) (fsR : FS),
        RenderTemplateFile fs tp dp data = (fsR, none) →
        statPerm fsR dp = statPerm fsR tp) ∧
    (∀ (fs : FS) (src dst : Path) (fsR : FS),
        CopyFile fs src dst = (fsR, none) →
        statPerm fsR dst = statPerm fsR src) := by
  constructor
  · intro fs tp dp data fsR hrun
    unfold RenderTemplateFile at hrun
    split at hrun
    next e heq => simp at hrun
    next content h1 =>
      split at hrun
      next e heq => simp at hrun
      next nodes h2 =>
        split at hrun
        next e heq => simp at hrun
        next fs1 h3 =>
          split at hrun
          next out execErr hr =>
            cases execErr with
            | some e => simp at hrun
            | none =>
              simp only [] at hrun
              split at hrun
              next e heq => simp at hrun
              next srcPerm h6 =>
                split at hrun
                next e heq => simp at hrun
                next fs3 h7 =>
                  simp at hrun
                  subst hrun
                  unfold chmod at h7
                  rw [FS.lookup_set_self] at h7
                  simp at h7
                  subst h7
                  by_cases htp : tp = dp
                  · subst htp
                    rfl
                  · rw [statPerm_set_file_self, statPerm_set_ne _ _ _ _ htp, h6]
  · intro fs src dst fsR hrun
    unfold CopyFile at hrun
    split at hrun
    next e heq => simp at hrun
    next content h1 =>
      split at hrun
      next e heq => simp at hrun
      next fs1 h3 =>
        simp only [] at hrun
        split at hrun
        next e heq => simp at hrun
        next srcPerm h6 =>
          split at hrun
          next e heq => simp at hrun
          next fs3 h7 =>
            simp at hrun
            subst hrun
            unfold chmod at h7
            rw [FS.lookup_set_self] at h7
            simp at h7
            subst h7
            by_cases htp : src = dst
            · subst htp
              rfl
            · rw [statPerm_set_file_self, statPerm_set_ne _ _ _ _ htp, h6]

/-- A filesystem with a template file and a plain file, used to witness the
permission-preservation statement. -/
def fsPerm : FS :=
  ⟨[(["tpl"], .dir 0o755), (["out"], .dir 0o750),
    (["tpl", "t.tmpl"], .file "hi" 0o600),
    (["tpl", "a.txt"], .file "A" 0o640)]⟩

/-- C9 witness: both statements applied to concrete successful runs. -/
theorem render_and_copy_preserve_permissions_witness :
    (RenderTemplateFile fsPerm ["tpl", "t.tmpl"] ["out", "t"] [] =
        ((RenderTemplateFile fsPerm ["tpl", "t.tmpl"] ["out", "t"] []).1, none)) ∧
    statPerm (RenderTemplateFile fsPerm ["tpl", "t.tmpl"] ["out", "t"] []).1
        ["out", "t"] =
      statPerm (RenderTemplateFile fsPerm ["tpl", "t.tmpl"] ["out", "t"] []).1
        ["tpl", "t.tmpl"] ∧
    (CopyFile fsPerm ["tpl", "a.txt"] ["out", "a.txt"] =
        ((CopyFile fsPerm ["tpl", "a.txt"] ["out", "a.txt"]).1, none)) ∧
    statPerm (CopyFile fsPerm ["tpl", "a.txt"] ["out", "a.txt"]).1 ["out", "a.txt"] =
      statPerm (CopyFile fsPerm ["tpl", "a.txt"] ["out", "a.txt"]).1 ["tpl", "a.txt"] :=
  ⟨by decide,
    render_and_copy_preserve_permissions.1 fsPerm ["tpl", "t.tmpl"] ["out", "t"] []
      (RenderTemplateFile fsPerm ["tpl", "t.tmpl"] ["out", "t"] []).1 (by decide),
    by decide,
    render_and_copy_preserve_permissions.2 fsPerm ["tpl", "a.txt"] ["out", "a.txt"]
      (CopyFile fsPerm ["tpl", "a.txt"] ["out", "a.txt"]).1 (by decide)⟩

end Mold
